import Mathlib

/-!
Verification development for the `replace-env` repository (crates
`replace-env` and `derive-replace-env`).

Rust strings are modelled as `List Char` (a Rust `String` is a sequence of
Unicode scalar values).  Byte-indexed slicing as performed by the source
(`&env_name[2..]`, `&default_value[0..len - 1]`) is modelled explicitly via
`Char.utf8Size`, and a Rust panic is modelled as `Option.none`.
-/

/-- Model of `replace_env::Metadata` (crates/replace-env/src/lib.rs, lines 7-9). -/
structure Metadata where
  secret : Bool
deriving DecidableEq

/-- Result of a process-environment lookup, modelling `std::env::var`:
`ok v` for `Ok(v)`, `notPresent` for `Err(VarError::NotPresent)`,
`notUnicode` for `Err(VarError::NotUnicode(_))`. -/
inductive EnvVal where
  | ok (v : List Char)
  | notPresent
  | notUnicode
deriving DecidableEq

/-- A process environment: a read-only name-to-value lookup. -/
abbrev Env := List Char → EnvVal

/-- Output of one `replace_env_in_string` call: the final contents of the
mutated string together with the warning lines emitted via `warn!`. -/
structure ResolveOut where
  value : List Char
  logs : List (List Char)
deriving DecidableEq

/-- Model of Rust `string.starts_with(['$', '{'])`: a `[char; 2]` pattern
matches when the FIRST character equals ANY element of the array
(crates/replace-env/src/lib.rs, line 37). -/
def startsWithDollarOrBrace : List Char → Bool
  | [] => false
  | c :: _ => c == '$' || c == '{'

/-- Model of Rust `string.ends_with('}')` (line 37). -/
def endsWithBrace (s : List Char) : Bool :=
  s.getLast? == some '}'

/-- Model of Rust `str::split_once(sep)` (line 38): split at the first
occurrence of `sep`, excluding the separator from both parts. -/
def splitOnce (sep : Char) : List Char → Option (List Char × List Char)
  | [] => none
  | c :: rest =>
    if c = sep then some ([], rest)
    else (splitOnce sep rest).map (fun p => (c :: p.1, p.2))

/-- Model of the byte slice `&s[2..s.len()]` (line 39).  Rust panics
(`none`) when the string is shorter than two bytes or when byte index 2
falls inside a multi-byte character. -/
def byteDrop2 : List Char → Option (List Char)
  | [] => none
  | c :: rest =>
    if c.utf8Size = 1 then
      match rest with
      | [] => none
      | c2 :: rest2 => if c2.utf8Size = 1 then some rest2 else none
    else if c.utf8Size = 2 then some rest
    else none

/-- Model of the byte slice `&s[0..s.len() - 1]` (line 40).  Rust panics
(`none`) on the empty string (index underflow) or when the last character
is multi-byte (byte index `len - 1` is not a character boundary). -/
def byteDropLast1 (s : List Char) : Option (List Char) :=
  match s.getLast? with
  | none => none
  | some c => if c.utf8Size = 1 then some s.dropLast else none

/-- Warning text of line 49 (variable not present, field not secret). -/
def warnNotPresentPlain (envName defaultValue : List Char) : List Char :=
  ("ENV variable \"").toList ++ envName ++
    ("\" not present. Using default: \"").toList ++ defaultValue ++ ("\"").toList

/-- Warning text of line 50 (variable not present, field secret). -/
def warnNotPresentSecret (envName : List Char) : List Char :=
  ("ENV variable \"").toList ++ envName ++ ("\" not present. Using secret default.").toList

/-- Warning text of line 53 (value not unicode, field not secret); the
source's typo "doest" is kept verbatim. -/
def warnNotUnicodePlain (envName defaultValue : List Char) : List Char :=
  ("ENV variable \"").toList ++ envName ++
    ("\" doest not contain valid unicode! Using default: \"").toList ++
    defaultValue ++ ("\"").toList

/-- Warning text of line 54 (value not unicode, field secret). -/
def warnNotUnicodeSecret (envName : List Char) : List Char :=
  ("ENV variable \"").toList ++ envName ++
    ("\" doest not contain valid unicode! Using secret default.").toList

/-- Model of `replace_env_in_string` (crates/replace-env/src/lib.rs, lines
36-64), parameterised by the process environment.  `none` models a panic;
`some ⟨v, logs⟩` models normal return with final string contents `v` and
the emitted warning lines `logs`. -/
def replace_env_in_string (env : Env) (metadata : Metadata) (s : List Char) :
    Option ResolveOut :=
  if startsWithDollarOrBrace s && endsWithBrace s then
    match splitOnce ':' s with
    | some (envName0, defaultValue0) =>
      match byteDrop2 envName0, byteDropLast1 defaultValue0 with
      | some envName, some defaultValue =>
        match env envName with
        | EnvVal.ok v => some ⟨v, []⟩
        | EnvVal.notPresent =>
          some ⟨defaultValue,
            [if metadata.secret then warnNotPresentSecret envName
             else warnNotPresentPlain envName defaultValue]⟩
        | EnvVal.notUnicode =>
          some ⟨defaultValue,
            [if metadata.secret then warnNotUnicodeSecret envName
             else warnNotUnicodePlain envName defaultValue]⟩
      | _, _ => none
    | none => some ⟨s, []⟩
  else some ⟨s, []⟩

/-- An environment in which no variable is defined. -/
def envAbsent : Env := fun _ => EnvVal.notPresent

/-- An environment defining exactly the variable `TIMEOUT_MS` with the
text `500`. -/
def envTimeout : Env := fun n =>
  if n = ("TIMEOUT_MS").toList then EnvVal.ok (("500").toList) else EnvVal.notPresent

/-- Substring test: `containsSub needle hay` is true iff `needle` occurs
contiguously inside `hay`. -/
def containsSub (needle : List Char) : List Char → Bool
  | [] => needle.isEmpty
  | c :: rest => List.isPrefixOf needle (c :: rest) || containsSub needle rest

/-- The exact placeholder shape of the spec: the string
`"$" ++ "\x7b" ++ N ++ ":" ++ D ++ "\x7d"`. -/
def mkPlaceholder (N D : List Char) : List Char :=
  '$' :: '{' :: (N ++ ':' :: (D ++ ['}']))

/-!
Model of the code generated by `derive-replace-env`
(crates/derive-replace-env/src/lib.rs).
-/

/-- The primitive target-type names listed in the derive macro
(crates/derive-replace-env/src/lib.rs, lines 73 and 82). -/
def primitiveIdents : List String :=
  ["String", "u8", "u16", "u32", "u64", "u128",
   "i8", "i16", "i32", "i64", "i128", "f32", "f64", "bool"]

/-- Outcome of raw-type derivation for one field: `ok isOption ident` is a
successfully derived raw type; `redundant` models the
`Do not specify raw_type = String for primitive types` abort (line 74);
`unresolved` models the `Expected a primitive type` abort (lines 84-90). -/
inductive RawTypeRes where
  | ok (isOption : Bool) (ident : String)
  | redundant
  | unresolved
deriving DecidableEq

/-- Model of `MyFieldReceiver::raw_type`
(crates/derive-replace-env/src/lib.rs, lines 68-93).  `isOption` and
`targetIdent` are the output of `get_type_info` on the field's type
(`Option<T>` is unwrapped with `isOption = true`), `override0` is the
optional `replace_env(raw_type = ...)` attribute value. -/
def rawTypeOf (isOption : Bool) (targetIdent : String) (override0 : Option String) :
    RawTypeRes :=
  match override0 with
  | some raw =>
    if raw = "String" then
      if targetIdent ∈ primitiveIdents then RawTypeRes.redundant
      else RawTypeRes.ok isOption raw
    else RawTypeRes.ok isOption raw
  | none =>
    if targetIdent ∈ primitiveIdents then RawTypeRes.ok isOption "String"
    else RawTypeRes.unresolved

/-- The kind of per-field conversion expression chosen by the derive macro
(crates/derive-replace-env/src/lib.rs, lines 183-207): a `parse::<bool>`
branch for target ident `bool`, a `parse::<u32>` branch for `u32`, and a
plain `orig.into()` for everything else. -/
inductive ConvKind where
  | parseBool
  | parseU32
  | intoConv
deriving DecidableEq

/-- The `if type_info.ident == "bool" ... else if == "u32" ... else` chain
of the generated `conv_actiono` (lines 183-207). -/
def convActionKind (targetIdent : String) : ConvKind :=
  if targetIdent = "bool" then ConvKind.parseBool
  else if targetIdent = "u32" then ConvKind.parseU32
  else ConvKind.intoConv

/-- Result of evaluating a generated conversion expression: `panic msg`
models a Rust `panic!` with the formatted message, `ok v` a normal value. -/
inductive PanicOr (α : Type) where
  | panic (msg : List Char)
  | ok (val : α)
deriving DecidableEq

/-- Functorial action on `PanicOr`; a panic inside a closure escapes it. -/
def pmap (f : α → β) : PanicOr α → PanicOr β
  | PanicOr.panic m => PanicOr.panic m
  | PanicOr.ok a => PanicOr.ok (f a)

/-- Rust `str::parse::<bool>` (`FromStr for bool`): exactly the literals
`true` and `false` parse; everything else is an error. -/
def parseBoolStr (s : List Char) : Option Bool :=
  if s = ("true").toList then some true
  else if s = ("false").toList then some false
  else none

/-- The formatted panic message of the generated bool branch (lines
184-188): the `expectation` format string with `orig` and the
`ParseBoolError` display text substituted. -/
def boolParseFailMsg (name orig : List Char) : List Char :=
  ("Expected field \x27").toList ++ name ++
    ("\x27 to be of type bool. But value read was: \x27").toList ++ orig ++
    ("\x27, which was not parsable to a bool. Use \x27false\x27 or \x27true\x27. Original error was: \x27provided string was not `true` or `false`\x27").toList

/-- Model of the generated bool conversion (lines 183-191): parse the
resolved string as a bool, panicking with the formatted message on
failure.  Note: the generated code takes no secrecy input at all. -/
def convBool (name orig : List Char) : PanicOr Bool :=
  match parseBoolStr orig with
  | some v => PanicOr.ok v
  | none => PanicOr.panic (boolParseFailMsg name orig)

/-- Model of the generated `final_conv_action` arm for
`(raw is Option, raw ident is String) = (true, true)` (lines 211-225):
absent stays absent, a present empty string becomes absent, any other
present value is converted and wrapped in `Some`. -/
def finalConvOptString (conv : List Char → PanicOr α) :
    Option (List Char) → PanicOr (Option α)
  | some orig => if orig = [] then PanicOr.ok none else pmap some (conv orig)
  | none => PanicOr.ok none

/-- Model of the generated `final_conv_action` arm for
`(true, false)` (lines 226-231): `orig.map(|orig| conv)` — no empty-string
short-circuit for non-string raw types. -/
def finalConvOptRaw (conv : ρ → PanicOr α) : Option ρ → PanicOr (Option α)
  | some orig => pmap some (conv orig)
  | none => PanicOr.ok none

/-- Model of the generated `final_conv_action` arm for non-optional fields
`(false, _)` (lines 232-237). -/
def finalConvRequired (conv : ρ → PanicOr α) (orig : ρ) : PanicOr α :=
  conv orig

/-- The branch `replace_env_in_string` takes on a well-shaped placeholder,
as a function of the environment-lookup outcome. -/
def resolveResult (md : Metadata) (N D : List Char) : EnvVal → ResolveOut
  | EnvVal.ok v => ⟨v, []⟩
  | EnvVal.notPresent =>
    ⟨D, [if md.secret then warnNotPresentSecret N else warnNotPresentPlain N D]⟩
  | EnvVal.notUnicode =>
    ⟨D, [if md.secret then warnNotUnicodeSecret N else warnNotUnicodePlain N D]⟩

/-!
Helper lemmas.
-/

lemma getLast?_append_single (l : List Char) (c : Char) :
    (l ++ [c]).getLast? = some c := by
  induction l with
  | nil => rfl
  | cons a as ih =>
    rw [List.cons_append]
    cases as with
    | nil => rfl
    | cons b bs =>
      simp only [List.cons_append] at ih ⊢
      rw [List.getLast?_cons_cons]
      exact ih

lemma dropLast_append_single (l : List Char) (c : Char) :
    (l ++ [c]).dropLast = l := by
  induction l with
  | nil => rfl
  | cons a as ih =>
    cases as with
    | nil => rfl
    | cons b bs =>
      simp only [List.cons_append] at ih ⊢
      rw [List.dropLast_cons₂, ih]

lemma splitOnce_marker (sep : Char) (l r : List Char) (h : sep ∉ l) :
    splitOnce sep (l ++ sep :: r) = some (l, r) := by
  induction l with
  | nil => simp [splitOnce]
  | cons c cs ih =>
    have hc : ¬ c = sep := fun e => h (e ▸ List.mem_cons_self c cs)
    have hcs : sep ∉ cs := fun m => h (List.mem_cons_of_mem c m)
    simp [splitOnce, hc, ih hcs]

lemma byteDrop2_marker (N : List Char) : byteDrop2 ('$' :: '{' :: N) = some N := rfl

lemma byteDropLast1_marker (D : List Char) :
    byteDropLast1 (D ++ ['}']) = some D := by
  rw [byteDropLast1, getLast?_append_single, dropLast_append_single]
  rfl

lemma startsWith_mkPlaceholder (N D : List Char) :
    startsWithDollarOrBrace (mkPlaceholder N D) = true := rfl

lemma mkPlaceholder_shape (N D : List Char) :
    mkPlaceholder N D = ('$' :: '{' :: N) ++ ':' :: (D ++ ['}']) := by
  simp [mkPlaceholder]

lemma endsWith_mkPlaceholder (N D : List Char) :
    endsWithBrace (mkPlaceholder N D) = true := by
  have h : mkPlaceholder N D = ('$' :: '{' :: (N ++ ':' :: D)) ++ ['}'] := by
    simp [mkPlaceholder]
  rw [endsWithBrace, h, getLast?_append_single]
  rfl

lemma colon_not_mem_open (N : List Char) (hN : ':' ∉ N) :
    (':' : Char) ∉ ('$' :: '{' :: N) := by
  intro h
  rcases List.mem_cons.mp h with h1 | h2
  · exact absurd h1 (by decide)
  · rcases List.mem_cons.mp h2 with h3 | h4
    · exact absurd h3 (by decide)
    · exact hN h4

/-- Master lemma: on the exact placeholder shape with a colon-free
variable name, `replace_env_in_string` returns normally and produces the
value and warnings dictated by the environment-lookup outcome. -/
lemma resolve_mk (env : Env) (md : Metadata) (N D : List Char) (hN : ':' ∉ N) :
    replace_env_in_string env md (mkPlaceholder N D) =
      some (resolveResult md N D (env N)) := by
  have hsplit : splitOnce ':' (mkPlaceholder N D) =
      some (('$' :: '{' :: N), (D ++ ['}'])) := by
    rw [mkPlaceholder_shape]
    exact splitOnce_marker ':' _ _ (colon_not_mem_open N hN)
  rw [replace_env_in_string, startsWith_mkPlaceholder, endsWith_mkPlaceholder]
  simp only [Bool.and_self, if_true, hsplit, byteDrop2_marker, byteDropLast1_marker]
  cases env N <;> rfl

/-!
Claim theorems.
-/

/-- C1 (code_bug evaluation): the source checks
`starts_with(['$', '{'])`, which matches a first character of `$` OR of
`\x7b`, not the two-character prefix `$\x7b` its own doc comment
describes.  The string `$A:B\x7d` does not start with the prefix
`$\x7b`, yet resolution rewrites it to `B` (looking up the empty variable
name) and emits a warning, contradicting the claimed identity behaviour
with no diagnostic. -/
theorem c1_code_eval :
    replace_env_in_string envAbsent ⟨false⟩ ['$', 'A', ':', 'B', '}'] =
      some ⟨['B'], [warnNotPresentPlain [] ['B']]⟩ ∧
    (['$', 'A', ':', 'B', '}'] : List Char) ≠ ['B'] ∧
    List.isPrefixOf ['$', '{'] ['$', 'A', ':', 'B', '}'] = false :=
  ⟨rfl, by decide, by decide⟩

/-- C9 (code_bug evaluation): on the input `$:\x7d` the source slices
`&env_name[2..]` with `env_name = "$"` of length 1, so
`replace_env_in_string` panics (modelled as `none`) for every process
environment and every secrecy flag, contradicting the claimed totality. -/
theorem c9_code_eval (env : Env) (md : Metadata) :
    replace_env_in_string env md ['$', ':', '}'] = none := rfl

/-- C10: the secrecy flag never affects the resolved value (nor whether
the call panics); it only selects the wording of the warning. -/
theorem c10_secret_independent (env : Env) (s : List Char) :
    (replace_env_in_string env ⟨true⟩ s).map ResolveOut.value =
      (replace_env_in_string env ⟨false⟩ s).map ResolveOut.value := by
  unfold replace_env_in_string
  by_cases h : (startsWithDollarOrBrace s && endsWithBrace s) = true
  · rw [if_pos h, if_pos h]
    cases splitOnce ':' s with
    | none => rfl
    | some p =>
      obtain ⟨l, r⟩ := p
      dsimp only
      cases byteDrop2 l with
      | none => cases byteDropLast1 r <;> rfl
      | some n =>
        cases byteDropLast1 r with
        | none => rfl
        | some d =>
          dsimp only
          cases env n <;> rfl
  · rw [if_neg h, if_neg h]

/-- C4 (counterexample): for the secret placeholder
`$\x7bTOKEN:default\x7d` with `TOKEN` undefined, the logged warning
`ENV variable "TOKEN" not present. Using secret default.` DOES contain the
default substring `default`, so "the logged text never contains D" is
false as literally stated. -/
theorem c4_counterexample :
    replace_env_in_string envAbsent ⟨true⟩
        (mkPlaceholder ("TOKEN").toList ("default").toList) =
      some ⟨("default").toList, [warnNotPresentSecret ("TOKEN").toList]⟩ ∧
    containsSub ("default").toList (warnNotPresentSecret ("TOKEN").toList) = true :=
  ⟨rfl, by decide⟩

/-- C4 (amended): for every placeholder `$\x7bN:D\x7d` (with `N`
colon-free) whose variable `N` is undefined, resolution yields `D` and
logs exactly one warning; when the field is secret that warning is
`warnNotPresentSecret N`, a function of `N` alone — the default `D` has no
influence on the logged text. -/
theorem c4_amended (env : Env) (N D : List Char) (sec : Bool)
    (hN : ':' ∉ N) (henv : env N = EnvVal.notPresent) :
    replace_env_in_string env ⟨sec⟩ (mkPlaceholder N D) =
      some ⟨D, [if sec then warnNotPresentSecret N
                else warnNotPresentPlain N D]⟩ := by
  rw [resolve_mk env ⟨sec⟩ N D hN, henv]
  rfl

/-- C4 witness: the amended theorem applied at `N = TOKEN`,
`D = changeme`, secret, under the empty environment. -/
theorem c4_witness :
    ((':' : Char) ∉ ("TOKEN").toList) ∧
    replace_env_in_string envAbsent ⟨true⟩
        (mkPlaceholder ("TOKEN").toList ("changeme").toList) =
      some ⟨("changeme").toList,
        [if true then warnNotPresentSecret ("TOKEN").toList
         else warnNotPresentPlain ("TOKEN").toList ("changeme").toList]⟩ :=
  ⟨by decide, c4_amended envAbsent _ _ true (by decide) rfl⟩

/-- C5: for every placeholder `$\x7bN:D\x7d` (with `N` colon-free) whose
variable `N` is defined with valid text `V`, resolution yields exactly `V`
— independently of `D` — and no warning is logged. -/
theorem c5_resolution (env : Env) (N D V : List Char) (sec : Bool)
    (hN : ':' ∉ N) (henv : env N = EnvVal.ok V) :
    replace_env_in_string env ⟨sec⟩ (mkPlaceholder N D) = some ⟨V, []⟩ := by
  rw [resolve_mk env ⟨sec⟩ N D hN, henv]
  rfl

/-- C5 witness: the theorem applied at `N = TIMEOUT_MS`, `D = 30`,
`V = 500` under an environment defining `TIMEOUT_MS=500`. -/
theorem c5_witness :
    ((':' : Char) ∉ ("TIMEOUT_MS").toList) ∧
    envTimeout ("TIMEOUT_MS").toList = EnvVal.ok (("500").toList) ∧
    replace_env_in_string envTimeout ⟨false⟩
        (mkPlaceholder ("TIMEOUT_MS").toList ("30").toList) =
      some ⟨("500").toList, []⟩ :=
  ⟨by decide, by decide, c5_resolution envTimeout _ _ _ false (by decide) (by decide)⟩

/-- C2 (code_bug evaluation): for the non-optional field `enabled: bool`
with resolved raw value `maybe`, the generated conversion does not return
a recoverable `FieldParseError`: it panics (aborting the process), with a
message that does name the field. -/
theorem c2_code_eval :
    convBool ("enabled").toList ("maybe").toList =
      PanicOr.panic (boolParseFailMsg ("enabled").toList ("maybe").toList) ∧
    containsSub ("enabled").toList
        (boolParseFailMsg ("enabled").toList ("maybe").toList) = true :=
  ⟨rfl, by decide⟩

/-- C3 (code_bug evaluation): the generated parse-failure message
interpolates the raw value for EVERY field — the generated `From` impl
takes no secrecy input at all — so for a secret field `flag` with resolved
value `hunter2` the diagnostic text contains `hunter2`, contradicting the
claimed redaction. -/
theorem c3_code_eval :
    convBool ("flag").toList ("hunter2").toList =
      PanicOr.panic (boolParseFailMsg ("flag").toList ("hunter2").toList) ∧
    containsSub ("hunter2").toList
        (boolParseFailMsg ("flag").toList ("hunter2").toList) = true :=
  ⟨rfl, by decide⟩

/-- C6 (code_bug evaluation): the derive macro special-cases only `bool`
and `u32`; every other declared integer width (here `u16`) falls through
to a plain `orig.into()` conversion, so a `u16` field with raw value
`abc` is never parsed with the `u16` literal grammar and never yields a
`FieldParseError`. -/
theorem c6_code_eval :
    convActionKind "u16" = ConvKind.intoConv ∧
    ConvKind.intoConv ≠ ConvKind.parseU32 ∧
    convActionKind "u32" = ConvKind.parseU32 ∧
    convActionKind "bool" = ConvKind.parseBool := by decide

/-- C7: optional-field handling of the generated `From` impl — an absent
raw value yields an absent typed value with no parsing attempted (the
result is `ok none` for EVERY conversion function); a present empty
string yields absence exactly in the string-raw-type arm; every other
present value is converted by the per-type rule and wrapped in `some`. -/
theorem c7_optional_conv {α ρ : Type} (conv : List Char → PanicOr α)
    (convR : ρ → PanicOr α) (s : List Char) (x : ρ) (hs : s ≠ []) :
    finalConvOptString conv none = PanicOr.ok none ∧
    finalConvOptRaw convR none = PanicOr.ok none ∧
    finalConvOptString conv (some []) = PanicOr.ok none ∧
    finalConvOptString conv (some s) = pmap some (conv s) ∧
    finalConvOptRaw convR (some x) = pmap some (convR x) := by
  refine ⟨rfl, rfl, rfl, ?_, rfl⟩
  simp only [finalConvOptString, if_neg hs]

/-- C7 witness: the theorem applied at a concrete conversion function and
the concrete present value `x`. -/
theorem c7_witness :
    (("x").toList ≠ ([] : List Char)) ∧
    (finalConvOptString (fun _ => PanicOr.ok (0 : Nat)) none = PanicOr.ok none ∧
     finalConvOptRaw (fun _ : Nat => PanicOr.ok (0 : Nat)) none = PanicOr.ok none ∧
     finalConvOptString (fun _ => PanicOr.ok (0 : Nat)) (some []) = PanicOr.ok none ∧
     finalConvOptString (fun _ => PanicOr.ok (0 : Nat)) (some ("x").toList) =
       pmap some ((fun _ => PanicOr.ok (0 : Nat)) ("x").toList) ∧
     finalConvOptRaw (fun _ : Nat => PanicOr.ok (0 : Nat)) (some 7) =
       pmap some ((fun _ : Nat => PanicOr.ok (0 : Nat)) 7)) :=
  ⟨by decide, c7_optional_conv _ _ _ 7 (by decide)⟩

/-- C8: raw-type derivation — with no override the raw type is `String`
exactly when the target ident is a known primitive and otherwise fails
with the unresolved-raw-type error; an override `String` fails with the
redundant-annotation error exactly when the target is primitive and is
otherwise taken as the raw type; any other override is taken as the raw
type; field optionality is preserved in every success case. -/
theorem c8_raw_type (isOpt : Bool) (target other : String)
    (hother : other ≠ "String") :
    rawTypeOf isOpt target none =
      (if target ∈ primitiveIdents then RawTypeRes.ok isOpt "String"
       else RawTypeRes.unresolved) ∧
    rawTypeOf isOpt target (some "String") =
      (if target ∈ primitiveIdents then RawTypeRes.redundant
       else RawTypeRes.ok isOpt "String") ∧
    rawTypeOf isOpt target (some other) = RawTypeRes.ok isOpt other := by
  refine ⟨rfl, rfl, ?_⟩
  simp [rawTypeOf, hother]

/-- C8 witness: the theorem applied at an optional `bool` target with the
non-`String` override `u32`. -/
theorem c8_witness :
    ("u32" ≠ "String") ∧
    (rawTypeOf true "bool" none =
       (if "bool" ∈ primitiveIdents then RawTypeRes.ok true "String"
        else RawTypeRes.unresolved) ∧
     rawTypeOf true "bool" (some "String") =
       (if "bool" ∈ primitiveIdents then RawTypeRes.redundant
        else RawTypeRes.ok true "String") ∧
     rawTypeOf true "bool" (some "u32") = RawTypeRes.ok true "u32") :=
  ⟨by decide, c8_raw_type true "bool" "u32" (by decide)⟩
